import Mathlib

/-!
Verification of the hyper-express ↔ Remix adapter (`src/server.ts`).

The single source file is shallowly embedded below:

* inbound (hyper-express) header collections are association lists from
  header name to a JavaScript value that is `undefined`, a single string,
  or an array of strings (Node's `IncomingHttpHeaders`);
* the Fetch `Headers` object built by `createRemixHeaders` is modelled as
  an ordered list of (name, value) pairs; `append` pushes a pair at the
  end, `set` removes every pair of that name and pushes one.  Name-case
  normalisation is elided: Node lowercases inbound header names, so all
  names reaching these operations are already in canonical case;
* the outbound (hyper-express) response object is modelled by the trace
  of calls made on it (`OutAction`), in order;
* `await import(build)` together with `require.cache` is modelled as an
  explicit cache (association list path ↦ module value) consulted before
  a `disk` oracle;
* `AbortController` / `response.on("close", ...)` are modelled by an
  explicit `World` holding the allocated controllers' aborted flags and
  the list of controller ids armed to abort on the connection's close
  event.
-/

namespace RemixHyperExpress

/-- A value of Node's `IncomingHttpHeaders`: `undefined`, one string, or an
array of strings. -/
inductive HeaderValue where
  | undef
  | single (v : String)
  | multi (vs : List String)
deriving Repr, DecidableEq

/-- JavaScript truthiness of a `HeaderValue`, as tested by `if (values)`:
`undefined` and the empty string are falsy, every array is truthy. -/
def jsTruthy : HeaderValue → Bool
  | .undef => false
  | .single v => v ≠ ""
  | .multi _ => true

/-- The Fetch `Headers` multimap, as an ordered list of (name, value)
pairs. -/
abbrev Headers := List (String × String)

/-- `Headers.prototype.append`: push the pair at the end. -/
def headersAppend (h : Headers) (k v : String) : Headers :=
  h ++ [(k, v)]

/-- `Headers.prototype.set`: drop every pair named `k`, then push the new
pair. -/
def headersSet (h : Headers) (k v : String) : Headers :=
  h.filter (fun p => p.1 ≠ k) ++ [(k, v)]

/-- One iteration of the `for (const [key, values] of Object.entries(...))`
loop body of `createRemixHeaders`. -/
def remixHeaderStep (headers : Headers) (kv : String × HeaderValue) : Headers :=
  if jsTruthy kv.2 then
    match kv.2 with
    | .multi vs => vs.foldl (fun h v => headersAppend h kv.1 v) headers
    | .single v => headersSet headers kv.1 v
    | .undef => headers
  else headers

/-- `createRemixHeaders` from `src/server.ts`: fold the loop body over the
entries of the inbound header object (whose keys are distinct, as
`Object.entries` of a JavaScript object yields each key once). -/
def createRemixHeaders (requestHeaders : List (String × HeaderValue)) : Headers :=
  requestHeaders.foldl remixHeaderStep []

/-- Number of entries named `k` in a canonical header list. -/
def countKey (h : Headers) (k : String) : Nat :=
  h.countP (fun p => decide (p.1 = k))

/-- Entries contributed by one inbound header value under
`createRemixHeaders`: an array contributes one entry per element, a truthy
single string contributes one entry, a falsy value contributes none. -/
def entryCount : HeaderValue → Nat
  | .undef => 0
  | .single v => if v = "" then 0 else 1
  | .multi vs => vs.length

example : createRemixHeaders [("x-a", .multi ["1", "2"]), ("x-b", .single "v")]
    = [("x-a", "1"), ("x-a", "2"), ("x-b", "v")] := by decide

example : createRemixHeaders [("x-b", .single "")] = [] := by decide

/-- The inbound hyper-express request, with the fields `server.ts` reads.
`url` is path plus query string; `path` is the path alone.  The request
object itself doubles as the raw body stream (it is what `init.body` is
assigned). -/
structure HyperRequest where
  protocol : String
  hostname : String
  url : String
  path : String
  method : String
  headers : List (String × HeaderValue)
deriving Repr, DecidableEq

/-- The canonical (Remix / Fetch) request built by `createRemixRequest`.
`signal` is the id of the `AbortController` whose signal was attached;
`body`, when present, is the inbound request acting as its raw stream. -/
structure NodeRequest where
  url : String
  method : String
  headers : Headers
  signal : Nat
  body : Option HyperRequest
deriving Repr, DecidableEq

/-- The pure part of `createRemixRequest`, given the id `cid` of the
freshly allocated `AbortController`: absolute URL reconstruction, method,
translated headers, signal attachment, and the body rule (no body for GET
or HEAD, otherwise the inbound request is attached as the raw stream). -/
def createRemixRequestCore (request : HyperRequest) (cid : Nat) : NodeRequest :=
  { url := request.protocol ++ "://" ++ request.hostname ++ request.url
    method := request.method
    headers := createRemixHeaders request.headers
    signal := cid
    body :=
      if request.method ≠ "GET" ∧ request.method ≠ "HEAD" then some request
      else none }

/-- The mutable surroundings of `createRemixRequest`: the aborted flags of
all allocated `AbortController`s (indexed by id) and the controller ids
registered by `response.on("close", () => controller.abort())`. -/
structure World where
  controllers : List Bool
  closeHandlers : List Nat
deriving Repr, DecidableEq

/-- `createRemixRequest` from `src/server.ts`: allocate a fresh
`AbortController` (aborted flag `false`), register a close handler that
aborts it, and build the canonical request carrying its signal. -/
def createRemixRequest (request : HyperRequest) (w : World) : NodeRequest × World :=
  let cid := w.controllers.length
  (createRemixRequestCore request cid,
   { controllers := w.controllers ++ [false]
     closeHandlers := w.closeHandlers ++ [cid] })

/-- The outbound connection's `close` event: run every registered close
handler; each one aborts its controller. -/
def fireClose (w : World) : World :=
  { w with controllers := w.closeHandlers.foldl (fun cs i => cs.set i true) w.controllers }

/-- Whether the cancellation signal attached to a canonical request has
fired. -/
def signalAborted (w : World) (req : NodeRequest) : Bool :=
  w.controllers.getD req.signal false

/-- One call made on the outbound hyper-express response object.
`header`'s third field mirrors the optional `overwrite` argument of
`Response.header` (`none` when the call leaves it to the default). -/
inductive OutAction where
  | setStatus (code : Nat) (text : String)
  | header (key value : String) (overwrite : Option Bool)
  | write (chunk : String)
  | send (data : Option String)
  | pipe (chunks : List String)
deriving Repr, DecidableEq

/-- The canonical (Remix / Fetch) response consumed by
`sendRemixResponse`.  `headersRaw` is `headers.raw()`: each name with its
ordered list of values; `body`, when present, is the readable stream as
its list of chunks. -/
structure NodeResponse where
  status : Nat
  statusText : String
  headersRaw : List (String × List String)
  body : Option (List String)
deriving Repr, DecidableEq

/-- `sendRemixResponse` from `src/server.ts`, as the trace of calls it
makes on the outbound response: status first, then every header value
appended with `overwrite = false`, then (if a body stream is present)
`writeReadableStreamToWritable` draining every chunk, then `send()`. -/
def sendRemixResponse (nodeResponse : NodeResponse) : List OutAction :=
  let actions := [OutAction.setStatus nodeResponse.status nodeResponse.statusText]
  let actions := nodeResponse.headersRaw.foldl
    (fun acc kv => kv.2.foldl (fun acc2 v => acc2 ++ [OutAction.header kv.1 v (some false)]) acc)
    actions
  match nodeResponse.body with
  | some chunks => actions ++ chunks.map OutAction.write ++ [OutAction.send none]
  | none => actions ++ [OutAction.send none]

/-- The (name, value) pairs emitted as non-overwriting outbound headers,
in order. -/
def appendedHeaders (tr : List OutAction) : List (String × String) :=
  tr.filterMap fun a =>
    match a with
    | .header k v (some false) => some (k, v)
    | _ => none

/-- The chunks written to the outbound writable side, in order. -/
def writtenChunks (tr : List OutAction) : List String :=
  tr.filterMap fun a =>
    match a with
    | .write c => some c
    | _ => none

/-- Whether an action is a `send` completion. -/
def isSendAction : OutAction → Bool
  | .send _ => true
  | _ => false

/-- JavaScript `String.prototype.startsWith`, via character lists. -/
def strStartsWith (s p : String) : Bool :=
  p.data.isPrefixOf s.data

/-- JavaScript `String.prototype.replace` with a string pattern on
character lists: replace the first occurrence of `pat` by `repl`. -/
def replaceFirstAux (pat repl : List Char) : List Char → List Char
  | [] => if pat = [] then repl else []
  | c :: cs =>
    if pat.isPrefixOf (c :: cs) then repl ++ (c :: cs).drop pat.length
    else c :: replaceFirstAux pat repl cs

/-- JavaScript `s.replace(pat, repl)` for a string pattern: only the first
occurrence is replaced. -/
def replaceFirst (s pat repl : String) : String :=
  String.mk (replaceFirstAux pat.data repl.data s.data)

example : replaceFirst "/build/entry.js" "/build" "" = "/entry.js" := by decide
example : replaceFirst "/buildings/x" "/build" "" = "ings/x" := by decide

/-- A record of a `LiveDirectory` index: `cached` tells whether the
content is materialized in memory; otherwise `streamChunks` is the lazy
byte stream. -/
structure Asset where
  cached : Bool
  content : String
  streamChunks : List String
deriving Repr, DecidableEq

/-- A `LiveDirectory` index, as an association list from request path to
asset record; `get` is association lookup. -/
abbrev AssetIndex := List (String × Asset)

/-- `LiveDirectory.get`. -/
def liveDirectoryGet (idx : AssetIndex) (path : String) : Option Asset :=
  (idx.find? (fun kv => kv.1 = path)).map Prod.snd

/-- The `ignore` filter of the public `LiveDirectory`: drop every file
path starting with `"build"`. -/
def buildPublicIndex (files : AssetIndex) : AssetIndex :=
  files.filter (fun kv => ¬ strStartsWith kv.1 "build")

/-- `const ONE_YEAR = 1 * 365 * 24 * 60 * 60`. -/
def ONE_YEAR : Nat := 1 * 365 * 24 * 60 * 60

/-- `const ONE_HOUR = 1 * 60 * 60`. -/
def ONE_HOUR : Nat := 1 * 60 * 60

/-- Which index served a static asset. -/
inductive AssetKind where
  | builtA
  | publicA
deriving Repr, DecidableEq

/-- The calls made on the outbound response when an asset is served: set
`Cache-Control` (default `overwrite`), then either `send(content)` for a
cached asset or pipe the lazy stream. -/
def assetResponse (maxAge : Nat) (asset : Asset) : List OutAction :=
  OutAction.header "Cache-Control" ("max-age=" ++ toString maxAge) none ::
  (if asset.cached then [OutAction.send (some asset.content)]
   else [OutAction.pipe asset.streamChunks])

/-- The configuration of `createRequestHandler`, after defaulting:
`mode` is `process.env.NODE_ENV` unless supplied, `purgeRequireCache` and
`serveStaticAssets` default to `true`. -/
structure Config where
  build : String
  mode : Option String
  purgeRequireCache : Bool
  serveStaticAssets : Bool
deriving Repr, DecidableEq

/-- The static-asset block of the request handler (lines 62–90): when
serving is enabled, a path starting with `"/build"` is looked up in the
built-assets index under the path with its first `"/build"` removed;
any other path is looked up in the public-assets index; a hit returns the
asset response (terminal), a miss falls through (`none`). -/
def tryStaticAsset (cfg : Config) (builtAssets publicAssets : AssetIndex)
    (path : String) : Option (AssetKind × List OutAction) :=
  if cfg.serveStaticAssets then
    if strStartsWith path "/build" then
      match liveDirectoryGet builtAssets (replaceFirst path "/build" "") with
      | some asset => some (.builtA, assetResponse ONE_YEAR asset)
      | none => none
    else
      match liveDirectoryGet publicAssets path with
      | some asset => some (.publicA, assetResponse ONE_HOUR asset)
      | none => none
  else none

/-- `require.cache`, as an association list from module key (path) to
loaded module state (represented by a `Nat` version). -/
abbrev RequireCache := List (String × Nat)

/-- Lookup in `require.cache`. -/
def cacheLookup (cache : RequireCache) (path : String) : Option Nat :=
  (cache.find? (fun kv => kv.1 = path)).map Prod.snd

/-- `await import(build)`: return the cached module if present, otherwise
load it from disk (which may fail) and cache the result. -/
def importModule {E : Type} (disk : String → Except E Nat)
    (cache : RequireCache) (path : String) : Except E Nat × RequireCache :=
  match cacheLookup cache path with
  | some m => (.ok m, cache)
  | none =>
    match disk path with
    | .ok m => (.ok m, cache ++ [(path, m)])
    | .error e => (.error e, cache)

/-- `purgeRequireCache` from `src/server.ts`: delete every cache entry
whose key starts with the build path. -/
def purgeRequireCache (build : String) (cache : RequireCache) : RequireCache :=
  cache.filter (fun kv => ¬ strStartsWith kv.1 build)

/-- Lines 53–60 of the handler: resolve the build through the module
cache, then, on success, purge the require cache when purging is enabled
and the mode is not `"production"`. -/
def resolveAndPurge {E : Type} (cfg : Config) (disk : String → Except E Nat)
    (cache : RequireCache) : Except E Nat × RequireCache :=
  let production : Bool := cfg.mode == some "production"
  match importModule disk cache cfg.build with
  | (.ok serverBuild, cache1) =>
    (.ok serverBuild,
     if cfg.purgeRequireCache && !production then purgeRequireCache cfg.build cache1
     else cache1)
  | (.error e, cache1) => (.error e, cache1)

/-- The external collaborators of one request, as oracles: dynamic module
loading from disk, the optional `getLoadContext` hook, the Remix request
handler (given the resolved build, the context and the canonical
request), and the outcome of draining a response body stream into the
outbound writable side.  Each may fail with an error value of type `E`. -/
structure Externals (E Ctx : Type) where
  disk : String → Except E Nat
  loadContext : Except E Ctx
  engine : Nat → Ctx → NodeRequest → Except E NodeResponse
  writeOutcome : List String → Except E Unit

/-- The terminal state of one request: a static asset was sent, the
translated response was sent, or an error value was returned by the
`catch` block. -/
inductive HandlerResult (E : Type) where
  | assetSent (kind : AssetKind) (actions : List OutAction)
  | completed (actions : List OutAction)
  | errored (e : E)
deriving Repr, DecidableEq

/-- Everything observable about one run of the handler: its terminal
result, the canonical requests the rendering engine was invoked with
(the invocation log), and the final module cache and controller world. -/
structure RunResult (E : Type) where
  result : HandlerResult E
  engineCalls : List NodeRequest
  cache : RequireCache
  world : World
deriving Repr

/-- The per-request closure returned by `createRequestHandler` (the
`try` block plus `catch (error) { return error }`), step for step:
resolve the build and purge, try a static asset (terminal on hit),
translate the request, run the optional context hook, invoke the
rendering engine, translate the response; any step's error value becomes
the handler's return value. -/
def hyperHandler {E Ctx : Type} (cfg : Config) (ext : Externals E Ctx)
    (builtAssets publicAssets : AssetIndex) (request : HyperRequest)
    (cache : RequireCache) (w : World) : RunResult E :=
  match resolveAndPurge cfg ext.disk cache with
  | (.error e, cache1) => ⟨.errored e, [], cache1, w⟩
  | (.ok serverBuild, cache1) =>
    match tryStaticAsset cfg builtAssets publicAssets request.path with
    | some (kind, actions) => ⟨.assetSent kind actions, [], cache1, w⟩
    | none =>
      let rr := createRemixRequest request w
      let remixRequest := rr.1
      let w1 := rr.2
      match ext.loadContext with
      | .error e => ⟨.errored e, [], cache1, w1⟩
      | .ok ctx =>
        match ext.engine serverBuild ctx remixRequest with
        | .error e => ⟨.errored e, [remixRequest], cache1, w1⟩
        | .ok nodeResponse =>
          let actions := sendRemixResponse nodeResponse
          match nodeResponse.body with
          | some chunks =>
            match ext.writeOutcome chunks with
            | .error e => ⟨.errored e, [remixRequest], cache1, w1⟩
            | .ok _ => ⟨.completed actions, [remixRequest], cache1, w1⟩
          | none => ⟨.completed actions, [remixRequest], cache1, w1⟩

/-- `createRequestHandler` from `src/server.ts`: construct the two
`LiveDirectory` indexes (the public one with its `ignore` filter) from
the directory listings and return the per-request closure. -/
def createRequestHandler {E Ctx : Type} (cfg : Config)
    (builtFiles publicFiles : AssetIndex) (ext : Externals E Ctx)
    (request : HyperRequest) (cache : RequireCache) (w : World) : RunResult E :=
  hyperHandler cfg ext builtFiles (buildPublicIndex publicFiles) request cache w

/-! ## Helper lemmas -/

theorem foldl_push_eq_append_map {α β : Type} (f : α → β) :
    ∀ (vs : List α) (acc : List β),
      vs.foldl (fun a v => a ++ [f v]) acc = acc ++ vs.map f
  | [], acc => by simp
  | v :: vs, acc => by
    rw [List.foldl_cons, foldl_push_eq_append_map f vs (acc ++ [f v])]
    simp

/-- The header actions emitted by `sendRemixResponse` for a raw header
collection, flattened. -/
def rawHeaderActions (entries : List (String × List String)) : List OutAction :=
  entries.flatMap (fun kv => kv.2.map (fun v => OutAction.header kv.1 v (some false)))

theorem headersRaw_foldl_eq (entries : List (String × List String)) :
    ∀ acc : List OutAction,
      entries.foldl
        (fun acc kv => kv.2.foldl (fun acc2 v => acc2 ++ [OutAction.header kv.1 v (some false)]) acc)
        acc
      = acc ++ rawHeaderActions entries := by
  induction entries with
  | nil => intro acc; simp [rawHeaderActions]
  | cons kv rest ih =>
    intro acc
    rw [List.foldl_cons, ih, foldl_push_eq_append_map]
    simp [rawHeaderActions]

/-- The tail of the `sendRemixResponse` trace after the headers: body
drain (if any) followed by the `send()` completion. -/
def bodyActions : Option (List String) → List OutAction
  | some chunks => chunks.map OutAction.write ++ [OutAction.send none]
  | none => [OutAction.send none]

theorem sendRemixResponse_shape (r : NodeResponse) :
    sendRemixResponse r =
      OutAction.setStatus r.status r.statusText ::
        (rawHeaderActions r.headersRaw ++ bodyActions r.body) := by
  simp only [sendRemixResponse]
  rw [headersRaw_foldl_eq]
  cases r.body <;> simp [bodyActions]

theorem appendedHeaders_rawHeaderActions (entries : List (String × List String)) :
    appendedHeaders (rawHeaderActions entries)
      = entries.flatMap (fun kv => kv.2.map (fun v => (kv.1, v))) := by
  induction entries with
  | nil => simp [rawHeaderActions, appendedHeaders]
  | cons kv rest ih =>
    simp only [rawHeaderActions, List.flatMap_cons, appendedHeaders,
      List.filterMap_append] at ih ⊢
    rw [ih]
    congr 1
    rw [List.filterMap_map]
    exact List.filterMap_eq_map (fun v => (kv.1, v)) ▸ rfl

theorem appendedHeaders_bodyActions (b : Option (List String)) :
    appendedHeaders (bodyActions b) = [] := by
  cases b with
  | none => simp [bodyActions, appendedHeaders]
  | some chunks =>
    simp only [bodyActions, appendedHeaders, List.filterMap_append, List.filterMap_map]
    simp [List.filterMap_eq_nil_iff]

/-! ## C1 — Response Translator header emission -/

/-- C1: for every canonical response, the Response Translator emits each
header name's values as separate outbound headers, in order, with the
`overwrite` flag always `false` (never replacing a previous value); in
particular two `Set-Cookie` values yield two distinct outbound
`Set-Cookie` headers. -/
theorem C1_response_headers_appended_separately (r : NodeResponse) :
    appendedHeaders (sendRemixResponse r)
        = r.headersRaw.flatMap (fun kv => kv.2.map (fun v => (kv.1, v)))
    ∧ (∀ k v ow, OutAction.header k v ow ∈ sendRemixResponse r → ow = some false)
    ∧ appendedHeaders (sendRemixResponse
        { status := 200, statusText := "OK",
          headersRaw := [("Set-Cookie", ["a=1", "b=2"])], body := none })
        = [("Set-Cookie", "a=1"), ("Set-Cookie", "b=2")] := by
  refine ⟨?_, ?_, by decide⟩
  · rw [sendRemixResponse_shape]
    have hsplit : appendedHeaders (OutAction.setStatus r.status r.statusText ::
        (rawHeaderActions r.headersRaw ++ bodyActions r.body))
        = appendedHeaders (rawHeaderActions r.headersRaw)
          ++ appendedHeaders (bodyActions r.body) := by
      simp [appendedHeaders]
    rw [hsplit, appendedHeaders_rawHeaderActions, appendedHeaders_bodyActions,
      List.append_nil]
  · intro k v ow hmem
    rw [sendRemixResponse_shape] at hmem
    rcases List.mem_cons.mp hmem with h | h
    · cases h
    rcases List.mem_append.mp h with h | h
    · rcases List.mem_flatMap.mp h with ⟨kv, _, hv⟩
      rcases List.mem_map.mp hv with ⟨v', _, hv'⟩
      cases hv'
      rfl
    · cases hb : r.body with
      | none => rw [hb] at h; simp [bodyActions] at h
      | some chunks =>
        rw [hb] at h
        simp only [bodyActions] at h
        rcases List.mem_append.mp h with h | h
        · rcases List.mem_map.mp h with ⟨c, _, hc⟩
          cases hc
        · simp at h

/-- Witness for C1: a concrete `Set-Cookie` header action of the trace,
and the conclusion that its overwrite flag is `false`. -/
theorem C1_response_headers_appended_separately_witness :
    OutAction.header "Set-Cookie" "a=1" (some false) ∈ sendRemixResponse
      { status := 200, statusText := "OK",
        headersRaw := [("Set-Cookie", ["a=1", "b=2"])], body := none }
    ∧ (some false : Option Bool) = some false :=
  ⟨by decide,
   (C1_response_headers_appended_separately
      { status := 200, statusText := "OK",
        headersRaw := [("Set-Cookie", ["a=1", "b=2"])], body := none }).2.1
      "Set-Cookie" "a=1" (some false) (by decide)⟩

/-! ## C4 — Response finalization -/

/-- C4: the `send` completion appears exactly once in every Response
Translator trace, it is the last action (so every body write precedes
it), and the written chunks are exactly the body stream's chunks (the
full drain) — the empty list when there is no body. -/
theorem C4_send_called_exactly_once_after_drain (r : NodeResponse) :
    (sendRemixResponse r).countP isSendAction = 1
    ∧ (sendRemixResponse r).getLast? = some (OutAction.send none)
    ∧ writtenChunks (sendRemixResponse r) = r.body.getD [] := by
  have hraw0 : (rawHeaderActions r.headersRaw).countP isSendAction = 0 := by
    rw [List.countP_eq_zero]
    intro a ha
    rcases List.mem_flatMap.mp ha with ⟨kv, _, hv⟩
    rcases List.mem_map.mp hv with ⟨v, _, hv'⟩
    cases hv'
    simp [isSendAction]
  have hraww : writtenChunks (rawHeaderActions r.headersRaw) = [] := by
    simp only [writtenChunks, List.filterMap_eq_nil_iff]
    intro a ha
    rcases List.mem_flatMap.mp ha with ⟨kv, _, hv⟩
    rcases List.mem_map.mp hv with ⟨v, _, hv'⟩
    cases hv'
    rfl
  refine ⟨?_, ?_, ?_⟩
  · rw [sendRemixResponse_shape, List.countP_cons_of_neg _ _ (by simp [isSendAction]),
      List.countP_append, hraw0]
    cases r.body with
    | none => simp [bodyActions, isSendAction]
    | some chunks =>
      simp only [bodyActions, List.countP_append, Nat.zero_add]
      rw [List.countP_eq_zero.mpr ?_]
      · simp [isSendAction]
      · intro a ha
        rcases List.mem_map.mp ha with ⟨c, _, hc⟩
        cases hc
        simp [isSendAction]
  · rw [sendRemixResponse_shape]
    cases r.body with
    | none =>
      show List.getLast? (OutAction.setStatus r.status r.statusText ::
        (rawHeaderActions r.headersRaw ++ [OutAction.send none])) = _
      rw [← List.cons_append, List.getLast?_concat]
    | some chunks =>
      show List.getLast? (OutAction.setStatus r.status r.statusText ::
        (rawHeaderActions r.headersRaw ++ (chunks.map OutAction.write ++ [OutAction.send none]))) = _
      rw [← List.append_assoc, ← List.cons_append, List.getLast?_concat]
  · rw [sendRemixResponse_shape]
    simp only [writtenChunks, List.filterMap_cons, List.filterMap_append]
    rw [show (rawHeaderActions r.headersRaw).filterMap (fun a =>
        match a with | .write c => some c | _ => none) = [] from hraww]
    cases r.body with
    | none => simp [bodyActions]
    | some chunks =>
      simp only [bodyActions, List.filterMap_append, List.filterMap_map, Option.getD_some]
      have : List.filterMap ((fun a =>
          match a with | OutAction.write c => some c | _ => none) ∘ OutAction.write) chunks
          = List.filterMap some chunks := rfl
      rw [this, List.filterMap_some]
      simp

/-! ## C2 — Request Translator header multiplicity -/

theorem countKey_headersAppend (h : Headers) (k v k' : String) :
    countKey (headersAppend h k v) k' = countKey h k' + (if k' = k then 1 else 0) := by
  simp only [countKey, headersAppend, List.countP_append, List.countP_cons, List.countP_nil]
  by_cases hk : k' = k
  · subst hk; simp
  · have hk' : ¬(k = k') := fun h => hk h.symm
    simp [hk, hk']

theorem countKey_headersSet (h : Headers) (k v k' : String) :
    countKey (headersSet h k v) k' = if k' = k then 1 else countKey h k' := by
  simp only [countKey, headersSet, List.countP_append]
  by_cases hk : k' = k
  · subst hk
    rw [if_pos rfl, List.countP_eq_zero.mpr, Nat.zero_add]
    · simp
    · intro p hp
      have hne : p.1 ≠ k' := by simpa using (List.mem_filter.mp hp).2
      simpa using hne
  · rw [if_neg hk]
    have h2 : List.countP (fun p : String × String => decide (p.1 = k')) [(k, v)] = 0 := by
      have : ¬(k = k') := fun h => hk h.symm
      simp [this]
    rw [h2, Nat.add_zero, List.countP_filter]
    exact List.countP_congr (by
      intro p _
      by_cases hp1 : p.1 = k' <;> simp [hp1, hk])

theorem countKey_append_fold (k : String) (vs : List String) (acc : Headers) (k' : String) :
    countKey (vs.foldl (fun h v => headersAppend h k v) acc) k'
      = countKey acc k' + (if k' = k then vs.length else 0) := by
  induction vs generalizing acc with
  | nil => simp
  | cons v vs ih =>
    rw [List.foldl_cons, ih, countKey_headersAppend]
    by_cases hk : k' = k <;> simp [hk, Nat.add_assoc, Nat.add_comm]

theorem countKey_remixHeaderStep_ne (acc : Headers) (k' : String) (v' : HeaderValue)
    (k : String) (hne : k ≠ k') :
    countKey (remixHeaderStep acc (k', v')) k = countKey acc k := by
  cases v' with
  | undef => rfl
  | single w =>
    by_cases hw : w = ""
    · subst hw; rfl
    · have hstep : remixHeaderStep acc (k', .single w) = headersSet acc k' w := by
        have ht : jsTruthy (HeaderValue.single w) = true := by simp [jsTruthy, hw]
        simp [remixHeaderStep, ht]
      rw [hstep, countKey_headersSet, if_neg hne]
  | multi vs =>
    have hstep : remixHeaderStep acc (k', .multi vs)
        = vs.foldl (fun h v => headersAppend h k' v) acc := rfl
    rw [hstep, countKey_append_fold, if_neg hne, Nat.add_zero]

theorem countKey_remixHeaderStep_self (acc : Headers) (k : String) (v : HeaderValue)
    (hacc : countKey acc k = 0) :
    countKey (remixHeaderStep acc (k, v)) k = entryCount v := by
  cases v with
  | undef => exact hacc
  | single w =>
    by_cases hw : w = ""
    · subst hw
      simpa [entryCount] using hacc
    · have hstep : remixHeaderStep acc (k, .single w) = headersSet acc k w := by
        have ht : jsTruthy (HeaderValue.single w) = true := by simp [jsTruthy, hw]
        simp [remixHeaderStep, ht]
      rw [hstep, countKey_headersSet, if_pos rfl]
      simp [entryCount, hw]
  | multi vs =>
    have hstep : remixHeaderStep acc (k, .multi vs)
        = vs.foldl (fun h v => headersAppend h k v) acc := rfl
    rw [hstep, countKey_append_fold, if_pos rfl, hacc, Nat.zero_add]
    rfl

theorem countKey_foldl_not_mem (hs : List (String × HeaderValue)) (acc : Headers)
    (k : String) (hk : k ∉ hs.map Prod.fst) :
    countKey (hs.foldl remixHeaderStep acc) k = countKey acc k := by
  induction hs generalizing acc with
  | nil => simp
  | cons kv rest ih =>
    obtain ⟨k₁, v₁⟩ := kv
    simp only [List.map_cons, List.mem_cons] at hk
    push_neg at hk
    rw [List.foldl_cons, ih _ hk.2, countKey_remixHeaderStep_ne _ _ _ _ hk.1]

theorem countKey_foldl_of_mem (hs : List (String × HeaderValue)) (acc : Headers)
    (k : String) (v : HeaderValue) (hnd : (hs.map Prod.fst).Nodup)
    (hmem : (k, v) ∈ hs) (hacc : countKey acc k = 0) :
    countKey (hs.foldl remixHeaderStep acc) k = entryCount v := by
  induction hs generalizing acc with
  | nil => cases hmem
  | cons kv rest ih =>
    obtain ⟨k₁, v₁⟩ := kv
    simp only [List.map_cons, List.nodup_cons] at hnd
    rcases List.mem_cons.mp hmem with h | h
    · cases h
      rw [List.foldl_cons, countKey_foldl_not_mem rest _ k hnd.1]
      exact countKey_remixHeaderStep_self acc k v hacc
    · have hne : k ≠ k₁ := by
        intro hk
        exact hnd.1 (hk ▸ List.mem_map.mpr ⟨(k, v), h, rfl⟩)
      rw [List.foldl_cons]
      exact ih _ hnd.2 h (by rw [countKey_remixHeaderStep_ne _ _ _ _ hne, hacc])

/-- The claim as written is false on the code: an inbound header whose
single value is the empty string is skipped by the `if (values)`
truthiness guard of `createRemixHeaders`, so it yields zero canonical
entries rather than exactly one. -/
theorem C2_counterexample_empty_single_value :
    countKey (createRemixHeaders [("x-b", HeaderValue.single "")]) "x-b" ≠ 1 := by
  decide

/-- C2 (amended): for an inbound header collection with distinct names
(as `Object.entries` of a JavaScript object yields), a header carried as
an array of n strings yields n canonical entries, a single non-empty
string yields exactly one, and a single empty string or `undefined`
yields none; on `{x-a: [1, 2], x-b: v}` this gives exactly the entries
(x-a, 1), (x-a, 2), (x-b, v), in order. -/
theorem C2_header_multiplicity_preserved :
    (∀ (hs : List (String × HeaderValue)) (k : String) (v : HeaderValue),
        (hs.map Prod.fst).Nodup → (k, v) ∈ hs →
        countKey (createRemixHeaders hs) k = entryCount v)
    ∧ createRemixHeaders [("x-a", .multi ["1", "2"]), ("x-b", .single "v")]
        = [("x-a", "1"), ("x-a", "2"), ("x-b", "v")] := by
  refine ⟨?_, by decide⟩
  intro hs k v hnd hmem
  exact countKey_foldl_of_mem hs [] k v hnd hmem rfl

/-- Witness for C2: the amended statement evaluated on the spec's own
example collection. -/
theorem C2_header_multiplicity_preserved_witness :
    countKey (createRemixHeaders [("x-a", HeaderValue.multi ["1", "2"]),
        ("x-b", HeaderValue.single "v")]) "x-a"
      = entryCount (HeaderValue.multi ["1", "2"]) :=
  C2_header_multiplicity_preserved.1
    [("x-a", HeaderValue.multi ["1", "2"]), ("x-b", HeaderValue.single "v")]
    "x-a" (HeaderValue.multi ["1", "2"]) (by decide) (by decide)

/-! ## C3 — Body attachment rule -/

/-- C3: the canonical request carries no body when the inbound method is
GET or HEAD, and for every other method the inbound request's raw body
stream (the request object itself) is attached unchanged. -/
theorem C3_body_only_for_non_get_head (request : HyperRequest) (cid : Nat) :
    ((request.method = "GET" ∨ request.method = "HEAD") →
        (createRemixRequestCore request cid).body = none)
    ∧ (request.method ≠ "GET" → request.method ≠ "HEAD" →
        (createRemixRequestCore request cid).body = some request) := by
  constructor
  · rintro (h | h) <;> simp [createRemixRequestCore, h]
  · intro h1 h2
    simp [createRemixRequestCore, h1, h2]

/-- Witness for C3: a POST request gets its stream attached, a GET
request gets none. -/
theorem C3_body_only_for_non_get_head_witness :
    (createRemixRequestCore
        { protocol := "http", hostname := "localhost", url := "/a?b=1", path := "/a",
          method := "POST", headers := [] } 0).body
      = some { protocol := "http", hostname := "localhost", url := "/a?b=1",
               path := "/a", method := "POST", headers := [] }
    ∧ (createRemixRequestCore
        { protocol := "http", hostname := "localhost", url := "/a?b=1", path := "/a",
          method := "GET", headers := [] } 0).body
      = none :=
  ⟨(C3_body_only_for_non_get_head
      { protocol := "http", hostname := "localhost", url := "/a?b=1", path := "/a",
        method := "POST", headers := [] } 0).2 (by decide) (by decide),
   (C3_body_only_for_non_get_head
      { protocol := "http", hostname := "localhost", url := "/a?b=1", path := "/a",
        method := "GET", headers := [] } 0).1 (Or.inl rfl)⟩

/-! ## C9 — Cancellation signal arming -/

theorem length_foldl_set_true (hs : List Nat) (cs : List Bool) :
    (hs.foldl (fun cs i => cs.set i true) cs).length = cs.length := by
  induction hs generalizing cs with
  | nil => rfl
  | cons j hs ih => rw [List.foldl_cons, ih, List.length_set]

theorem foldl_set_true_keeps_true (hs : List Nat) (cs : List Bool) (i : Nat)
    (h : cs.get? i = some true) :
    (hs.foldl (fun cs j => cs.set j true) cs).get? i = some true := by
  induction hs generalizing cs with
  | nil => exact h
  | cons j hs ih =>
    rw [List.foldl_cons]
    apply ih
    by_cases hj : j = i
    · subst hj
      have hlt : j < cs.length := by
        by_contra hge
        rw [List.get?_eq_none.mpr (Nat.le_of_not_lt hge)] at h
        cases h
      simp [List.get?_eq_getElem?, hlt]
    · rw [List.get?_eq_getElem?, List.getElem?_set_ne (fun h' => hj h'), ← List.get?_eq_getElem?]
      exact h

theorem foldl_set_true_hits (hs : List Nat) (cs : List Bool) (i : Nat)
    (hlt : i < cs.length) (hmem : i ∈ hs) :
    (hs.foldl (fun cs j => cs.set j true) cs).get? i = some true := by
  induction hs generalizing cs with
  | nil => cases hmem
  | cons j hs ih =>
    rw [List.foldl_cons]
    rcases List.mem_cons.mp hmem with h | h
    · subst h
      apply foldl_set_true_keeps_true
      simp [List.get?_eq_getElem?, hlt]
    · exact ih (cs.set j true) (by rw [List.length_set]; exact hlt) h

/-- C9: `createRemixRequest` allocates a fresh cancellation controller
(not yet aborted), attaches its signal to the canonical request, and arms
the outbound connection's close event to abort it: firing the close event
afterwards makes the signal observed by the canonical request aborted. -/
theorem C9_close_event_fires_signal (request : HyperRequest) (w : World) :
    signalAborted (createRemixRequest request w).2 (createRemixRequest request w).1 = false
    ∧ signalAborted (fireClose (createRemixRequest request w).2)
        (createRemixRequest request w).1 = true := by
  constructor
  · show (w.controllers ++ [false]).getD w.controllers.length false = false
    rw [List.getD_eq_getElem?_getD, List.getElem?_concat_length]
    rfl
  · show ((w.closeHandlers ++ [w.controllers.length]).foldl
        (fun cs i => cs.set i true) (w.controllers ++ [false])).getD
        w.controllers.length false = true
    rw [List.getD_eq_getElem?_getD, ← List.get?_eq_getElem?, foldl_set_true_hits]
    · rfl
    · simp
    · exact List.mem_append_right _ (List.mem_singleton.mpr rfl)

/-! ## C5 — Error pass-through at the orchestrator boundary -/

/-- C5: a failure at build resolution, the context hook, the
rendering-engine invocation, or response translation makes the handler
return that very error value (the `catch` block's `return error`), with
no wrapping or transformation; the handler is a total function and
propagates no exception. -/
theorem C5_errors_returned_unchanged {E Ctx : Type} (cfg : Config) (ext : Externals E Ctx)
    (builtAssets publicAssets : AssetIndex) (request : HyperRequest)
    (cache : RequireCache) (w : World) (e : E) :
    (∀ cache1, resolveAndPurge cfg ext.disk cache = (.error e, cache1) →
        (hyperHandler cfg ext builtAssets publicAssets request cache w).result = .errored e)
    ∧ (∀ b cache1, resolveAndPurge cfg ext.disk cache = (.ok b, cache1) →
        tryStaticAsset cfg builtAssets publicAssets request.path = none →
        ext.loadContext = .error e →
        (hyperHandler cfg ext builtAssets publicAssets request cache w).result = .errored e)
    ∧ (∀ b cache1 ctx, resolveAndPurge cfg ext.disk cache = (.ok b, cache1) →
        tryStaticAsset cfg builtAssets publicAssets request.path = none →
        ext.loadContext = .ok ctx →
        ext.engine b ctx (createRemixRequest request w).1 = .error e →
        (hyperHandler cfg ext builtAssets publicAssets request cache w).result = .errored e)
    ∧ (∀ b cache1 ctx resp chunks, resolveAndPurge cfg ext.disk cache = (.ok b, cache1) →
        tryStaticAsset cfg builtAssets publicAssets request.path = none →
        ext.loadContext = .ok ctx →
        ext.engine b ctx (createRemixRequest request w).1 = .ok resp →
        resp.body = some chunks →
        ext.writeOutcome chunks = .error e →
        (hyperHandler cfg ext builtAssets publicAssets request cache w).result = .errored e) := by
  refine ⟨?_, ?_, ?_, ?_⟩
  · intro cache1 hres
    simp only [hyperHandler, hres]
  · intro b cache1 hres ha hc
    simp only [hyperHandler, hres, ha, hc]
  · intro b cache1 ctx hres ha hc he
    simp only [hyperHandler, hres, ha, hc, he]
  · intro b cache1 ctx resp chunks hres ha hc he hb hw
    simp only [hyperHandler, hres, ha, hc, he, hb, hw]

/-- Witness for C5: a handler whose build resolution fails with `"boom"`
returns exactly `"boom"`. -/
theorem C5_errors_returned_unchanged_witness :
    (hyperHandler
        { build := "/srv/build", mode := none,
          purgeRequireCache := true, serveStaticAssets := true }
        ({ disk := fun _ => .error "boom", loadContext := .ok (),
           engine := fun _ _ _ => .ok { status := 200, statusText := "OK",
                                        headersRaw := [], body := none },
           writeOutcome := fun _ => .ok () } : Externals String Unit)
        [] []
        { protocol := "http", hostname := "h", url := "/", path := "/",
          method := "GET", headers := [] }
        [] { controllers := [], closeHandlers := [] }).result
      = .errored "boom" :=
  (C5_errors_returned_unchanged
      { build := "/srv/build", mode := none,
        purgeRequireCache := true, serveStaticAssets := true }
      { disk := fun _ => .error "boom", loadContext := .ok (),
        engine := fun _ _ _ => .ok { status := 200, statusText := "OK",
                                     headersRaw := [], body := none },
        writeOutcome := fun _ => .ok () }
      [] []
      { protocol := "http", hostname := "h", url := "/", path := "/",
        method := "GET", headers := [] }
      [] { controllers := [], closeHandlers := [] } "boom").1 [] rfl

/-! ## C6 — Development cache purge vs production caching -/

theorem strStartsWith_self (s : String) : strStartsWith s s = true := by
  simp [strStartsWith, List.isPrefixOf_iff_prefix]

theorem cacheLookup_purge_self (b : String) (c : RequireCache) :
    cacheLookup (purgeRequireCache b c) b = none := by
  have hfind : (purgeRequireCache b c).find? (fun kv => kv.1 = b) = none := by
    rw [List.find?_eq_none]
    intro x hx
    have hns : ¬ strStartsWith x.1 b = true := by
      simpa using (List.mem_filter.mp hx).2
    intro hxb
    apply hns
    have hx1 : x.1 = b := by simpa using hxb
    rw [hx1]
    exact strStartsWith_self b
  simp [cacheLookup, hfind]

theorem cacheLookup_find?_eq_none {c : RequireCache} {p : String}
    (h : cacheLookup c p = none) : c.find? (fun kv => kv.1 = p) = none := by
  cases hfind : c.find? (fun kv => kv.1 = p) with
  | none => rfl
  | some kv =>
    rw [cacheLookup, hfind] at h
    cases h

/-- C6: with purging enabled and mode ≠ "production", a second resolution
of the same build path after one request sees fresh module state (the
purge removed every cache key under the build path); in production mode
the second resolution returns the module cached by the first request and
never consults the (changed) disk. -/
theorem C6_purge_in_dev_cache_in_prod {E : Type} (cfg : Config)
    (disk1 disk2 : String → Except E Nat) (cache0 : RequireCache) (v1 : Nat)
    (hl : cacheLookup cache0 cfg.build = none)
    (h1 : disk1 cfg.build = .ok v1) :
    (cfg.purgeRequireCache = true → (cfg.mode == some "production") = false →
      ∀ v2, disk2 cfg.build = .ok v2 →
        (resolveAndPurge cfg disk2 (resolveAndPurge cfg disk1 cache0).2).1 = .ok v2)
    ∧ ((cfg.mode == some "production") = true →
        (resolveAndPurge cfg disk2 (resolveAndPurge cfg disk1 cache0).2).1 = .ok v1) := by
  constructor
  · intro hp hm v2 h2
    have hfirst : resolveAndPurge cfg disk1 cache0
        = (.ok v1, purgeRequireCache cfg.build (cache0 ++ [(cfg.build, v1)])) := by
      simp only [resolveAndPurge, importModule, hl, h1]
      rw [if_pos (by rw [hp, hm]; rfl)]
    rw [hfirst]
    have hlook : cacheLookup
        (purgeRequireCache cfg.build (cache0 ++ [(cfg.build, v1)])) cfg.build = none :=
      cacheLookup_purge_self _ _
    simp only [resolveAndPurge, importModule, hlook, h2]
  · intro hm
    have hfirst : resolveAndPurge cfg disk1 cache0
        = (.ok v1, cache0 ++ [(cfg.build, v1)]) := by
      simp only [resolveAndPurge, importModule, hl, h1]
      rw [if_neg (by rw [hm]; simp)]
    rw [hfirst]
    have hlook2 : cacheLookup (cache0 ++ [(cfg.build, v1)]) cfg.build = some v1 := by
      rw [cacheLookup, List.find?_append, cacheLookup_find?_eq_none hl]
      simp
    simp only [resolveAndPurge, importModule, hlook2]

/-- Witness for C6: with an empty cache and mode `none`, loading version
1 then changing the disk to version 2 makes the second resolution return
version 2. -/
theorem C6_purge_in_dev_cache_in_prod_witness :
    (resolveAndPurge
        { build := "/srv/build", mode := none,
          purgeRequireCache := true, serveStaticAssets := true }
        ((fun _ => .ok 2) : String → Except Unit Nat)
        (resolveAndPurge
          { build := "/srv/build", mode := none,
            purgeRequireCache := true, serveStaticAssets := true }
          ((fun _ => .ok 1) : String → Except Unit Nat) []).2).1 = .ok 2 :=
  (C6_purge_in_dev_cache_in_prod
      { build := "/srv/build", mode := none,
        purgeRequireCache := true, serveStaticAssets := true }
      (fun _ => .ok 1) (fun _ => .ok 2) [] 1 rfl rfl).1 rfl rfl 2 rfl

/-! ## C7 — Cache-Control lifetimes -/

/-- C7: a built-assets hit carries `Cache-Control: max-age=31536000`
(`ONE_YEAR = 1 * 365 * 24 * 60 * 60` seconds) and a public-assets hit
carries `Cache-Control: max-age=3600` (`ONE_HOUR` seconds). -/
theorem C7_cache_control_lifetimes (cfg : Config) (built public : AssetIndex)
    (path : String) (asset : Asset) (hserve : cfg.serveStaticAssets = true) :
    ((strStartsWith path "/build" = true →
        liveDirectoryGet built (replaceFirst path "/build" "") = some asset →
        tryStaticAsset cfg built public path
            = some (AssetKind.builtA, assetResponse ONE_YEAR asset)
        ∧ OutAction.header "Cache-Control" "max-age=31536000" none
            ∈ assetResponse ONE_YEAR asset)
    ∧ (strStartsWith path "/build" = false →
        liveDirectoryGet public path = some asset →
        tryStaticAsset cfg built public path
            = some (AssetKind.publicA, assetResponse ONE_HOUR asset)
        ∧ OutAction.header "Cache-Control" "max-age=3600" none
            ∈ assetResponse ONE_HOUR asset))
    ∧ ONE_YEAR = 31536000 ∧ ONE_HOUR = 3600
    ∧ ONE_YEAR = 1 * 365 * 24 * 60 * 60 := by
  refine ⟨⟨?_, ?_⟩, rfl, rfl, rfl⟩
  · intro hstart hget
    constructor
    · unfold tryStaticAsset
      rw [if_pos hserve, if_pos hstart, hget]
    · unfold assetResponse
      rw [show ("max-age=" ++ toString ONE_YEAR) = "max-age=31536000" from by decide]
      exact List.mem_cons_self _ _
  · intro hstart hget
    constructor
    · unfold tryStaticAsset
      rw [if_pos hserve, if_neg (by rw [hstart]; simp), hget]
    · unfold assetResponse
      rw [show ("max-age=" ++ toString ONE_HOUR) = "max-age=3600" from by decide]
      exact List.mem_cons_self _ _

/-- Witness for C7: a concrete built asset under `/build/x.js` is served
with the one-year Cache-Control header. -/
theorem C7_cache_control_lifetimes_witness :
    tryStaticAsset
        { build := "/srv/build", mode := none,
          purgeRequireCache := true, serveStaticAssets := true }
        [("/x.js", { cached := true, content := "body", streamChunks := [] })] []
        "/build/x.js"
      = some (AssetKind.builtA,
          assetResponse ONE_YEAR { cached := true, content := "body", streamChunks := [] }) :=
  ((C7_cache_control_lifetimes
      { build := "/srv/build", mode := none,
        purgeRequireCache := true, serveStaticAssets := true }
      [("/x.js", { cached := true, content := "body", streamChunks := [] })] []
      "/build/x.js" { cached := true, content := "body", streamChunks := [] }
      rfl).1.1 (by decide) (by decide)).1

/-! ## C8 — Fallthrough to the rendering engine -/

/-- C8: when the request path matches neither asset index (or static
serving is disabled, skipping the resolver entirely), and the preceding
steps succeed, the rendering engine is invoked exactly once, with the
translated canonical request. -/
theorem C8_fallthrough_invokes_engine {E Ctx : Type} (cfg : Config)
    (ext : Externals E Ctx) (built public : AssetIndex) (request : HyperRequest)
    (cache : RequireCache) (w : World) (b : Nat) (ctx : Ctx) (cache1 : RequireCache)
    (hres : resolveAndPurge cfg ext.disk cache = (.ok b, cache1))
    (hctx : ext.loadContext = .ok ctx)
    (hmiss : cfg.serveStaticAssets = false
      ∨ (strStartsWith request.path "/build" = true
          ∧ liveDirectoryGet built (replaceFirst request.path "/build" "") = none)
      ∨ (strStartsWith request.path "/build" = false
          ∧ liveDirectoryGet public request.path = none)) :
    (hyperHandler cfg ext built public request cache w).engineCalls
      = [createRemixRequestCore request w.controllers.length] := by
  have ha : tryStaticAsset cfg built public request.path = none := by
    rcases hmiss with h | ⟨h1, h2⟩ | ⟨h1, h2⟩
    · unfold tryStaticAsset
      rw [if_neg (by rw [h]; simp)]
    · by_cases hs : cfg.serveStaticAssets = true
      · unfold tryStaticAsset
        rw [if_pos hs, if_pos h1, h2]
      · unfold tryStaticAsset
        rw [if_neg hs]
    · by_cases hs : cfg.serveStaticAssets = true
      · unfold tryStaticAsset
        rw [if_pos hs, if_neg (by rw [h1]; simp), h2]
      · unfold tryStaticAsset
        rw [if_neg hs]
  simp only [hyperHandler, hres, ha, hctx]
  cases he : ext.engine b ctx (createRemixRequest request w).1 with
  | error e => simp [createRemixRequest]
  | ok resp =>
    cases hb : resp.body with
    | none => simp [hb, createRemixRequest]
    | some chunks =>
      cases hw : ext.writeOutcome chunks with
      | error e => simp [hb, hw, createRemixRequest]
      | ok u => simp [hb, hw, createRemixRequest]

/-- Witness for C8: a request for a path in neither index reaches the
engine with its canonical translation. -/
theorem C8_fallthrough_invokes_engine_witness :
    (hyperHandler
        { build := "/srv/build", mode := none,
          purgeRequireCache := true, serveStaticAssets := true }
        ({ disk := fun _ => .ok 1, loadContext := .ok (),
           engine := fun _ _ _ => .ok { status := 200, statusText := "OK",
                                        headersRaw := [], body := none },
           writeOutcome := fun _ => .ok () } : Externals Unit Unit)
        [] []
        { protocol := "http", hostname := "h", url := "/misc", path := "/misc",
          method := "GET", headers := [] }
        [] { controllers := [], closeHandlers := [] }).engineCalls
      = [createRemixRequestCore
          { protocol := "http", hostname := "h", url := "/misc", path := "/misc",
            method := "GET", headers := [] } 0] :=
  C8_fallthrough_invokes_engine
    { build := "/srv/build", mode := none,
      purgeRequireCache := true, serveStaticAssets := true }
    { disk := fun _ => .ok 1, loadContext := .ok (),
      engine := fun _ _ _ => .ok { status := 200, statusText := "OK",
                                   headersRaw := [], body := none },
      writeOutcome := fun _ => .ok () }
    [] []
    { protocol := "http", hostname := "h", url := "/misc", path := "/misc",
      method := "GET", headers := [] }
    [] { controllers := [], closeHandlers := [] } 1 () []
    rfl rfl
    (Or.inr (Or.inr ⟨by decide, by decide⟩))

/-! ## C10 — "/build" prefix routing -/

/-- C10: every path starting with `"/build"` — including `"/buildings/x"`
where `"/build"` is not a whole segment — takes the built-assets branch,
looked up under the path with its first `"/build"` occurrence removed,
and is never served from the public index; moreover the public index's
construction filter excludes every file path starting with `"build"`. -/
theorem C10_build_prefix_takes_built_branch (cfg : Config)
    (built public : AssetIndex) (path : String)
    (hserve : cfg.serveStaticAssets = true)
    (hstart : strStartsWith path "/build" = true) :
    tryStaticAsset cfg built public path
        = (liveDirectoryGet built (replaceFirst path "/build" "")).map
            (fun a => (AssetKind.builtA, assetResponse ONE_YEAR a))
    ∧ (∀ kind actions, tryStaticAsset cfg built public path = some (kind, actions) →
        kind = AssetKind.builtA)
    ∧ (∀ files kv, kv ∈ buildPublicIndex files → strStartsWith kv.1 "build" = false)
    ∧ strStartsWith "/buildings/x" "/build" = true
    ∧ replaceFirst "/buildings/x" "/build" "" = "ings/x" := by
  have h1 : tryStaticAsset cfg built public path
      = (liveDirectoryGet built (replaceFirst path "/build" "")).map
          (fun a => (AssetKind.builtA, assetResponse ONE_YEAR a)) := by
    unfold tryStaticAsset
    rw [if_pos hserve, if_pos hstart]
    cases hget : liveDirectoryGet built (replaceFirst path "/build" "") <;> rfl
  refine ⟨h1, ?_, ?_, by decide, by decide⟩
  · intro kind actions h
    rw [h1] at h
    cases hget : liveDirectoryGet built (replaceFirst path "/build" "") with
    | none => rw [hget] at h; cases h
    | some a =>
      rw [hget] at h
      injection h with hpair
      exact (congrArg Prod.fst hpair).symm
  · intro files kv hkv
    simpa using (List.mem_filter.mp hkv).2

/-- Witness for C10: the path `"/buildings/x"` is routed to the built
index under `"ings/x"`, and so is served as a built asset there. -/
theorem C10_build_prefix_takes_built_branch_witness :
    tryStaticAsset
        { build := "/srv/build", mode := none,
          purgeRequireCache := true, serveStaticAssets := true }
        [("ings/x", { cached := true, content := "b", streamChunks := [] })] []
        "/buildings/x"
      = some (AssetKind.builtA,
          assetResponse ONE_YEAR { cached := true, content := "b", streamChunks := [] }) :=
  ((C10_build_prefix_takes_built_branch
      { build := "/srv/build", mode := none,
        purgeRequireCache := true, serveStaticAssets := true }
      [("ings/x", { cached := true, content := "b", streamChunks := [] })] []
      "/buildings/x" rfl (by decide)).1).trans (by decide)

end RemixHyperExpress
